import Mathlib

/-!
Verification development for the process environment-variable store
(`src/node_env_var.cc`): the OS-backed key/value store (`RealEnvStore`)
with its POSIX and Windows (UTF-16) branches, and the named-property
facade (`EnvGetter`, `EnvSetter`, `EnvDeleter`).

Native strings (`char*` / `WCHAR*`) are modelled as lists of characters;
the live environment block is modelled either as an association list of
(key, value) pairs (for the get/set/query/delete system calls) or as a
list of raw `KEY=VALUE` records (for the enumeration walk).
-/

set_option autoImplicit false

/-- A native string: a `char*` (POSIX byte string) or `WCHAR*` (Windows
UTF-16 string), modelled as the list of its characters (code units). -/
abbrev NativeStr := List Char

/-- The environment block as the get/set/delete system calls see it:
an association list from keys to values. -/
abbrev EnvBlock := List (NativeStr × NativeStr)

/-- The environment block as the enumeration walk sees it: the raw
`KEY=VALUE` records in order (`environ` / `GetEnvironmentStringsW`). -/
abbrev RawBlock := List NativeStr

/-- Lookup of a key in the environment block: the value of the first
matching entry (`getenv` / the lookup performed by
`GetEnvironmentVariableW`). -/
def envLookup : EnvBlock → NativeStr → Option NativeStr
  | [], _ => none
  | (k, v) :: rest, key => if k = key then some v else envLookup rest key

/-- Creating or overwriting an entry (`setenv(key, val, 1)` /
`SetEnvironmentVariableW(key, val)`): replaces the first matching entry,
or appends a new entry when the key is absent. -/
def storeSet : EnvBlock → NativeStr → NativeStr → EnvBlock
  | [], k, v => [(k, v)]
  | (k', v') :: rest, k, v =>
    if k' = k then (k, v) :: rest else (k', v') :: storeSet rest k v

/-- Removing an entry (`unsetenv(key)` /
`SetEnvironmentVariableW(key, nullptr)`): removes every matching entry;
a no-op when the key is absent. -/
def storeDelete : EnvBlock → NativeStr → EnvBlock
  | [], _ => []
  | (k', v') :: rest, k =>
    if k' = k then storeDelete rest k else (k', v') :: storeDelete rest k

/-- Whether the first character of a key is `'='` (the test
`key_ptr[0] == L'='`; for the empty key the first character is the NUL
terminator, which is not `'='`). -/
def startsWithEq : NativeStr → Bool
  | [] => false
  | c :: _ => c = '='

/-! ## POSIX branch of `RealEnvStore` -/

/-- `RealEnvStore::Get`, POSIX branch: `getenv` and, when non-null,
decoding of the value. -/
def posixGet (env : EnvBlock) (key : NativeStr) : Option NativeStr :=
  envLookup env key

/-- `RealEnvStore::Set`, POSIX branch: `setenv(key, val, 1)`. -/
def posixSet (env : EnvBlock) (key val : NativeStr) : EnvBlock :=
  storeSet env key val

/-- `RealEnvStore::Delete`, POSIX branch: `unsetenv(key)`. -/
def posixDelete (env : EnvBlock) (key : NativeStr) : EnvBlock :=
  storeDelete env key

/-- `RealEnvStore::Query`, POSIX branch: `0` when `getenv` returns
non-null (also for a present-but-empty value), `-1` otherwise. -/
def posixQuery (env : EnvBlock) (key : NativeStr) : Int :=
  if (envLookup env key).isSome then 0 else -1

/-- Position of the first `'='` in a record (`strchr(var, '=')` /
`wcschr(p, L'=')`). -/
def indexOfEq : NativeStr → Option Nat
  | [] => none
  | c :: rest => if c = '=' then some 0 else (indexOfEq rest).map (· + 1)

/-- The key extracted from one raw record: the characters before the
first `'='`, or the whole record when it has no `'='`
(`length = s ? s - var : strlen(var)`). -/
def recordKey (r : NativeStr) : NativeStr :=
  match indexOfEq r with
  | some i => r.take i
  | none => r.take r.length

/-- `RealEnvStore::Enumerate`, POSIX branch: every record of `environ`
contributes the characters before its first `'='` as a key. -/
def posixEnumerate : RawBlock → List NativeStr
  | [] => []
  | r :: rest => recordKey r :: posixEnumerate rest

/-! ## Windows (UTF-16) branch of `RealEnvStore` -/

/-- The stack buffer size in `RealEnvStore::Get`:
`WCHAR buffer[32767]`, "the maximum size allowed for environment
variables" (terminator included). -/
def bufSize : Nat := 32767

/-- The maximum length of a host (V8) string in UTF-16 code units;
`String::NewFromTwoByte` fails (and the code raises
`ERR_STRING_TOO_LONG`) beyond it. -/
def v8MaxLength : Nat := 2 ^ 29 - 24

/-- Result of `RealEnvStore::Get` on the Windows branch: a decoded
value, an empty handle (no value), or a thrown `ERR_STRING_TOO_LONG`. -/
inductive GetResult where
  | value (v : NativeStr)
  | noValue
  | encodingError
  deriving DecidableEq, Repr

/-- `RealEnvStore::Get`, Windows branch. `GetEnvironmentVariableW` into
a 32767-`WCHAR` buffer: an absent key gives result 0 with a non-success
last error; a present value that fits (length + terminator ≤ 32767) is
copied and decoded by `String::NewFromTwoByte`, which fails only beyond
the host string-length maximum; a present value that does not fit makes
the API report the required size, failing the `result < arraysize(buffer)`
check, so the function falls through to the empty handle. -/
def winGet (env : EnvBlock) (key : NativeStr) : GetResult :=
  match envLookup env key with
  | none => .noValue
  | some v =>
    if v.length + 1 ≤ bufSize then
      if v.length > v8MaxLength then .encodingError else .value v
    else .noValue

/-- `RealEnvStore::Set`, Windows branch: keys whose first character is
`'='` are read-only, so `SetEnvironmentVariableW` is not called for
them. -/
def winSet (env : EnvBlock) (key val : NativeStr) : EnvBlock :=
  if startsWithEq key then env else storeSet env key val

/-- `RealEnvStore::Delete`, Windows branch:
`SetEnvironmentVariableW(key, nullptr)` unconditionally. -/
def winDelete (env : EnvBlock) (key : NativeStr) : EnvBlock :=
  storeDelete env key

/-- The flag combination `v8::ReadOnly | v8::DontDelete | v8::DontEnum`
(1 | 4 | 2 = 7) returned by `Query` for hidden keys. -/
def hiddenAttrs : Int := 7

/-- `RealEnvStore::Query`, Windows branch:
`GetEnvironmentVariableW(key, nullptr, 0)` returns the required size
(positive, terminator included) for any present key and 0 with a
non-success last error for an absent one; a present key whose first
character is `'='` reports the read-only/hidden flags, any other present
key reports 0, an absent key reports -1. -/
def winQuery (env : EnvBlock) (key : NativeStr) : Int :=
  if (envLookup env key).isSome then
    if startsWithEq key then hiddenAttrs else 0
  else -1

/-- `RealEnvStore::Enumerate`, Windows branch: walk the raw block until
its empty-record terminator; a record whose first character is `'='` is
a hidden variable and is skipped; otherwise the characters before the
first `'='` (the whole record when it has none) form the key, decoded by
`String::NewFromTwoByte` with an explicit length, which fails with
`ERR_STRING_TOO_LONG` (aborting the whole enumeration) beyond the host
string-length maximum. -/
def winEnumerate : RawBlock → Option (List NativeStr)
  | [] => some []
  | r :: rest =>
    if r = [] then some []
    else if startsWithEq r then winEnumerate rest
    else
      let key := recordKey r
      if key.length > v8MaxLength then none
      else (winEnumerate rest).map (key :: ·)

/-! ## Property facade (`EnvGetter`, `EnvSetter`, `EnvDeleter`) -/

/-- A `v8::Local<Name>`: per the named-property-interceptor contract a
property name is either a string or a symbol. -/
inductive JSName where
  | str (s : NativeStr)
  | symbol (id : Nat)
  deriving DecidableEq, Repr

/-- `property->IsSymbol()`. -/
def JSName.isSymbol : JSName → Bool
  | .symbol _ => true
  | .str _ => false

/-- `property->IsString()`. -/
def JSName.isString : JSName → Bool
  | .str _ => true
  | .symbol _ => false

/-- The string carried by a string name (meaningful only when
`isString`). -/
def JSName.stringVal : JSName → NativeStr
  | .str s => s
  | .symbol _ => []

/-- `property->ToString(context)`: a string converts to itself; on a
symbol the conversion throws, leaving the `MaybeLocal` empty. -/
def JSName.nameToString : JSName → Option NativeStr
  | .str s => some s
  | .symbol _ => none

/-- A `v8::Local<Value>` as the setter sees it: the primitive
categories it tests (`IsString`, `IsNumber`, `IsBoolean`) plus the other
values, with an object carrying the outcome of its user-defined string
conversion (which may throw, hence `Option`). -/
inductive JSValue where
  | str (s : NativeStr)
  | num (n : Int)
  | boolean (b : Bool)
  | undef
  | nullV
  | object (conv : Option NativeStr)
  | symbol (id : Nat)
  deriving DecidableEq, Repr

/-- `value->IsString()`. -/
def JSValue.isString : JSValue → Bool
  | .str _ => true
  | _ => false

/-- `value->IsNumber()`. -/
def JSValue.isNumber : JSValue → Bool
  | .num _ => true
  | _ => false

/-- `value->IsBoolean()`. -/
def JSValue.isBoolean : JSValue → Bool
  | .boolean _ => true
  | _ => false

/-- `value->ToString(context)`: strings, numbers, booleans, `undefined`
and `null` convert; an object converts per its own conversion, which may
throw; converting a symbol throws. -/
def JSValue.valueToString : JSValue → Option NativeStr
  | .str s => some s
  | .num n => some (toString n).data
  | .boolean b => some (if b then "true".data else "false".data)
  | .undef => some "undefined".data
  | .nullV => some "null".data
  | .object conv => conv
  | .symbol _ => none

/-- Result of `EnvGetter`: `undefined` (for symbols) or the store's
`Get` result (a possibly empty string handle). -/
inductive EnvGetterResult where
  | undefinedResult
  | valueResult (r : Option NativeStr)
  deriving DecidableEq, Repr

/-- `EnvGetter`: a symbol name returns `undefined` without consulting
the store; then `CHECK(property->IsString())` (modelled as the `none`
branch, which aborts the process if reached) and delegation to the
store's `Get` (abstracted as `g`). -/
def envGetter (g : NativeStr → Option NativeStr) (property : JSName) :
    Option EnvGetterResult :=
  if property.isSymbol then some .undefinedResult
  else if property.isString then some (.valueResult (g property.stringVal))
  else none

/-- The observable result of `EnvSetter`: either the return value was
set (`info.GetReturnValue().Set(value)`), or the callback returned early
without setting it (a pending exception propagates). -/
inductive SetterResult where
  | returned (v : JSValue)
  | aborted
  deriving DecidableEq, Repr

/-- The per-context state `EnvSetter` reads and writes: the one-time
warning flag and the underlying store. -/
structure SetterState where
  warned : Bool
  store : EnvBlock
  deriving DecidableEq, Repr

/-- Everything observable about one `EnvSetter` call: the state after
the call, the callback result, whether the deprecation-notice
collaborator was invoked, and the list of `Set` invocations made on the
underlying store. -/
structure SetterOutcome where
  warned : Bool
  store : EnvBlock
  result : SetterResult
  notified : Bool
  setCalls : List (NativeStr × NativeStr)
  deriving DecidableEq, Repr

/-- Modelled from the spec: `Environment::EmitProcessEnvWarning` is not
in the source under verification; per the spec's one-time-warning design
note it returns whether this is the first qualifying write (the reverse
of the flag) and sets the flag. -/
def emitProcessEnvWarning (warned : Bool) : Bool × Bool :=
  (!warned, true)

/-- `EnvSetter`. `pd` is `env->options()->pending_deprecation`; `warnOk`
models whether the deprecation-notice collaborator
(`ProcessEmitDeprecationWarning`, not in the source under verification)
succeeds when invoked — `IsNothing()` on failure makes the callback
return before any coercion or store call. Afterwards `name` and `value`
are coerced to strings (an early return when either coercion throws)
and passed to the store's `Set`; only then is the original value set as
the return value. -/
def envSetter (pd warnOk : Bool) (property : JSName) (value : JSValue)
    (st : SetterState) : SetterOutcome :=
  let qualifies := pd && !value.isString && !value.isNumber && !value.isBoolean
  let emit := qualifies && (emitProcessEnvWarning st.warned).1
  let warned' := if qualifies then (emitProcessEnvWarning st.warned).2 else st.warned
  if emit && !warnOk then
    { warned := warned', store := st.store, result := .aborted,
      notified := true, setCalls := [] }
  else
    match property.nameToString, value.valueToString with
    | some k, some v =>
      { warned := warned', store := storeSet st.store k v,
        result := .returned value, notified := emit, setCalls := [(k, v)] }
    | _, _ =>
      { warned := warned', store := st.store, result := .aborted,
        notified := emit, setCalls := [] }

/-- `EnvDeleter`: a string name is passed to the store's `Delete`
(abstracted as `del`), any other name leaves the store alone; the
boolean return value is set to `true` in both cases. -/
def envDeleter (del : EnvBlock → NativeStr → EnvBlock) (property : JSName)
    (env : EnvBlock) : EnvBlock × Bool :=
  match property with
  | .str s => (del env s, true)
  | .symbol _ => (env, true)

/-- A sequence of `EnvSetter` calls in one process lifetime, each with
its own collaborator outcome, name and value; returns the final state
and the number of deprecation notifications emitted. -/
def runWrites (pd : Bool) :
    List (Bool × JSName × JSValue) → SetterState → SetterState × Nat
  | [], st => (st, 0)
  | (warnOk, p, v) :: rest, st =>
    let o := envSetter pd warnOk p v st
    let r := runWrites pd rest ⟨o.warned, o.store⟩
    (r.1, (if o.notified then 1 else 0) + r.2)

/-! ## Helper lemmas -/

theorem envLookup_storeSet_self (e : EnvBlock) (k v : NativeStr) :
    envLookup (storeSet e k v) k = some v := by
  induction e with
  | nil => simp [storeSet, envLookup]
  | cons hd tl ih =>
    obtain ⟨k', v'⟩ := hd
    by_cases h : k' = k
    · simp [storeSet, h, envLookup]
    · simp [storeSet, h, envLookup, ih]

theorem envLookup_storeDelete_self (e : EnvBlock) (k : NativeStr) :
    envLookup (storeDelete e k) k = none := by
  induction e with
  | nil => simp [storeDelete, envLookup]
  | cons hd tl ih =>
    obtain ⟨k', v'⟩ := hd
    by_cases h : k' = k
    · simp [storeDelete, h, ih]
    · simp [storeDelete, h, envLookup, ih]

theorem indexOfEq_eq_none_of_not_mem (r : NativeStr) (h : '=' ∉ r) :
    indexOfEq r = none := by
  induction r with
  | nil => rfl
  | cons c rest ih =>
    rw [List.mem_cons, not_or] at h
    have hc : c ≠ '=' := fun hcc => h.1 hcc.symm
    simp [indexOfEq, hc, ih h.2]

theorem recordKey_of_no_sep (r : NativeStr) (h : '=' ∉ r) : recordKey r = r := by
  simp [recordKey, indexOfEq_eq_none_of_not_mem r h]

theorem startsWithEq_recordKey (r : NativeStr) (h : startsWithEq r = false) :
    startsWithEq (recordKey r) = false := by
  match r with
  | [] => rfl
  | c :: rest =>
    have hcc : ¬ c = '=' := by simpa [startsWithEq] using h
    rcases hi : indexOfEq rest with _ | i
    · have hidx : indexOfEq (c :: rest) = none := by simp [indexOfEq, hcc, hi]
      simp [recordKey, hidx, startsWithEq, hcc]
    · have hidx : indexOfEq (c :: rest) = some (i + 1) := by
        simp [indexOfEq, hcc, hi]
      simp [recordKey, hidx, startsWithEq, hcc]

theorem winEnumerate_keys_not_hidden (block : RawBlock) (keys : List NativeStr)
    (h : winEnumerate block = some keys) :
    ∀ x ∈ keys, startsWithEq x = false := by
  induction block generalizing keys with
  | nil =>
    simp only [winEnumerate, Option.some.injEq] at h
    simp [← h]
  | cons r rest ih =>
    by_cases hr : r = []
    · simp only [winEnumerate, hr, if_true, Option.some.injEq] at h
      simp [← h]
    · by_cases hh : startsWithEq r = true
      · simp only [winEnumerate, hr, if_false, hh, if_true] at h
        exact ih keys h
      · rw [Bool.not_eq_true] at hh
        by_cases hlen : (recordKey r).length > v8MaxLength
        · simp [winEnumerate, hr, hh, hlen] at h
        · rcases he : winEnumerate rest with _ | tailKeys
          · simp [winEnumerate, hr, hh, hlen, he] at h
          · simp only [winEnumerate, hr, hh, hlen, he, if_false,
              Bool.false_eq_true, if_neg, Option.map_some',
              Option.some.injEq] at h
            intro x hx
            rw [← h] at hx
            rcases List.mem_cons.mp hx with hx | hx
            · rw [hx]
              exact startsWithEq_recordKey r hh
            · exact ih tailKeys he x hx

theorem winEnumerate_eq_filter_map (block : RawBlock) (hne : [] ∉ block)
    (hlen : ∀ r ∈ block, (recordKey r).length ≤ v8MaxLength) :
    winEnumerate block =
      some ((block.filter (fun r => !startsWithEq r)).map recordKey) := by
  induction block with
  | nil => simp [winEnumerate]
  | cons r rest ih =>
    rw [List.mem_cons, not_or] at hne
    have hr : ¬ r = [] := fun hrr => hne.1 hrr.symm
    have hlr : ¬ (recordKey r).length > v8MaxLength := by
      simpa using hlen r (List.mem_cons_self r rest)
    have ihh := ih hne.2 (fun x hx => hlen x (List.mem_cons_of_mem r hx))
    by_cases hh : startsWithEq r = true
    · simp [winEnumerate, hr, hh, ihh, List.filter_cons]
    · rw [Bool.not_eq_true] at hh
      simp [winEnumerate, hr, hh, hlr, ihh, List.filter_cons]

theorem envSetter_flags (pd warnOk : Bool) (p : JSName) (v : JSValue)
    (st : SetterState) :
    (envSetter pd warnOk p v st).notified
      = (pd && !v.isString && !v.isNumber && !v.isBoolean && !st.warned) ∧
    (envSetter pd warnOk p v st).warned
      = ((pd && !v.isString && !v.isNumber && !v.isBoolean) || st.warned) := by
  unfold envSetter emitProcessEnvWarning
  cases hq : (pd && !v.isString && !v.isNumber && !v.isBoolean) <;>
    cases hw : st.warned <;> cases warnOk <;>
      cases hp : p.nameToString <;> cases hv : v.valueToString <;>
        simp [hq, hw, hp, hv]

theorem envSetter_of_warned (pd warnOk : Bool) (p : JSName) (v : JSValue)
    (st : SetterState) (h : st.warned = true) :
    (envSetter pd warnOk p v st).warned = true ∧
    (envSetter pd warnOk p v st).notified = false := by
  obtain ⟨h1, h2⟩ := envSetter_flags pd warnOk p v st
  rw [h] at h1 h2
  simp [h1, h2]

theorem envSetter_notified (pd warnOk : Bool) (p : JSName) (v : JSValue)
    (st : SetterState) (h : (envSetter pd warnOk p v st).notified = true) :
    st.warned = false ∧ (envSetter pd warnOk p v st).warned = true := by
  obtain ⟨h1, h2⟩ := envSetter_flags pd warnOk p v st
  rw [h1] at h
  rw [h2]
  rw [Bool.and_eq_true] at h
  obtain ⟨hq, hw⟩ := h
  rw [Bool.not_eq_true'] at hw
  exact ⟨hw, by simp [hq]⟩

theorem runWrites_of_warned (pd : Bool) (calls : List (Bool × JSName × JSValue))
    (st : SetterState) (h : st.warned = true) :
    (runWrites pd calls st).2 = 0 := by
  induction calls generalizing st with
  | nil => simp [runWrites]
  | cons c rest ih =>
    obtain ⟨wok, p, v⟩ := c
    have h1 := envSetter_of_warned pd wok p v st h
    simp only [runWrites, h1.2, Bool.false_eq_true, if_neg, if_false]
    simpa using ih ⟨(envSetter pd wok p v st).warned, (envSetter pd wok p v st).store⟩ h1.1

theorem runWrites_count_le_one (pd : Bool) (calls : List (Bool × JSName × JSValue))
    (st : SetterState) : (runWrites pd calls st).2 ≤ 1 := by
  induction calls generalizing st with
  | nil => simp [runWrites]
  | cons c rest ih =>
    obtain ⟨wok, p, v⟩ := c
    by_cases hn : (envSetter pd wok p v st).notified = true
    · have h2 := (envSetter_notified pd wok p v st hn).2
      have h3 := runWrites_of_warned pd rest
        ⟨(envSetter pd wok p v st).warned, (envSetter pd wok p v st).store⟩ h2
      simp [runWrites, hn, h3]
    · rw [Bool.not_eq_true] at hn
      simpa [runWrites, hn] using
        ih ⟨(envSetter pd wok p v st).warned, (envSetter pd wok p v st).store⟩

/-! ## Claim theorems -/

/-- Claim C1, as stated over both platform branches, fails on the
hidden-key guard of the Windows `Set`: setting the key `"=C:"` (whose
encoding succeeds) is a silent no-op, so the following `Get` reports no
value instead of returning the value just set. -/
theorem c1_counterexample :
    winGet (winSet [] ['=', 'C', ':'] ['x']) ['=', 'C', ':'] ≠
      GetResult.value ['x'] ∧
    winGet (winSet [] ['=', 'C', ':'] ['x']) ['=', 'C', ':'] =
      GetResult.noValue := by
  constructor
  · decide
  · decide

/-- Claim C1 (amended): `Set(k, v)` followed by `Get(k)` returns exactly
`v` — on the POSIX branch for every key and value, and on the Windows
branch for every key not beginning with `'='` and every value that fits
the platform buffer ceiling (terminator included). -/
theorem c1_set_get_roundtrip :
    (∀ e k v, posixGet (posixSet e k v) k = some v) ∧
    (∀ e k v, startsWithEq k = false → v.length + 1 ≤ bufSize →
      winGet (winSet e k v) k = GetResult.value v) := by
  constructor
  · intro e k v
    exact envLookup_storeSet_self e k v
  · intro e k v hk hv
    have hmax : ¬ v.length > v8MaxLength := by
      unfold bufSize at hv
      unfold v8MaxLength
      omega
    simp [winGet, winSet, hk, envLookup_storeSet_self, hv, hmax]

/-- Witness for C1: a concrete round trip on each branch. -/
theorem c1_witness :
    posixGet (posixSet [] ['A'] ['x']) ['A'] = some ['x'] ∧
    winGet (winSet [] ['A'] ['x']) ['A'] = GetResult.value ['x'] :=
  ⟨c1_set_get_roundtrip.1 [] ['A'] ['x'],
   c1_set_get_roundtrip.2 [] ['A'] ['x'] (by decide) (by decide)⟩

/-- Claim C2: on the Windows branch, for every key beginning with `'='`,
`Set` leaves the environment block unchanged, the key never appears in
an `Enumerate` result, and `Query` on it, when the key is present,
reports the read-only/hidden flag combination rather than absent. -/
theorem c2_hidden_entries (k : NativeStr) (hk : startsWithEq k = true) :
    (∀ e v, winSet e k v = e) ∧
    (∀ block keys, winEnumerate block = some keys → k ∉ keys) ∧
    (∀ e, (envLookup e k).isSome = true → winQuery e k = hiddenAttrs) := by
  refine ⟨?_, ?_, ?_⟩
  · intro e v
    simp [winSet, hk]
  · intro block keys h hmem
    have h2 := winEnumerate_keys_not_hidden block keys h k hmem
    rw [hk] at h2
    exact absurd h2 (by decide)
  · intro e he
    simp [winQuery, he, hk]

/-- Witness for C2: the scenario with the key `"=C:"`. -/
theorem c2_witness :
    winSet [(['=', 'C', ':'], ['D'])] ['=', 'C', ':'] ['x']
      = [(['=', 'C', ':'], ['D'])] ∧
    ['=', 'C', ':'] ∉ [(['A'] : NativeStr)] ∧
    winQuery [(['=', 'C', ':'], ['D'])] ['=', 'C', ':'] = hiddenAttrs :=
  ⟨(c2_hidden_entries ['=', 'C', ':'] (by decide)).1 _ _,
   (c2_hidden_entries ['=', 'C', ':'] (by decide)).2.1
     [['A', '=', '1']] [['A']] (by decide),
   (c2_hidden_entries ['=', 'C', ':'] (by decide)).2.2 _ (by decide)⟩

/-- Evaluation of the Windows `Get` when the key is absent. -/
theorem winGet_of_lookup_none (e : EnvBlock) (k : NativeStr)
    (h : envLookup e k = none) : winGet e k = GetResult.noValue := by
  unfold winGet
  rw [h]

/-- Evaluation of the Windows `Get` when the key is present. -/
theorem winGet_of_lookup_some (e : EnvBlock) (k v : NativeStr)
    (h : envLookup e k = some v) :
    winGet e k =
      if v.length + 1 ≤ bufSize then
        if v.length > v8MaxLength then GetResult.encodingError
        else GetResult.value v
      else GetResult.noValue := by
  unfold winGet
  rw [h]

/-- Claim C3, as stated, fails on `Get`: with a stored value of 32767
code units (which with its terminator exceeds the 32767-unit buffer),
the `result < arraysize(buffer)` check fails and the function falls
through to the empty handle — the key is reported absent, not an
EncodingError. -/
theorem c3_counterexample :
    (List.replicate 32767 'a').length + 1 > bufSize ∧
    winGet [(['K'], List.replicate 32767 'a')] ['K'] ≠
      GetResult.encodingError ∧
    winGet [(['K'], List.replicate 32767 'a')] ['K'] = GetResult.noValue := by
  have hlk : envLookup [(['K'], List.replicate 32767 'a')] ['K']
      = some (List.replicate 32767 'a') := rfl
  have hw : winGet [(['K'], List.replicate 32767 'a')] ['K']
      = GetResult.noValue := by
    rw [winGet_of_lookup_some _ _ _ hlk, List.length_replicate,
      if_neg (by decide)]
  refine ⟨?_, ?_, hw⟩
  · rw [List.length_replicate]
    decide
  · rw [hw]
    decide

/-- Claim C3 (amended): on the Windows branch a stored value that would
exceed the buffer ceiling (terminator included) makes `Get` report the
key as absent (no value) rather than fail with an EncodingError; and any
value `Get` does return is exactly the stored value (never a
truncation). -/
theorem c3_overlong_value :
    (∀ e k v, envLookup e k = some v → v.length + 1 > bufSize →
      winGet e k = GetResult.noValue) ∧
    (∀ e k w, winGet e k = GetResult.value w → envLookup e k = some w) := by
  constructor
  · intro e k v h hlen
    rw [winGet_of_lookup_some _ _ _ h, if_neg (by omega)]
  · intro e k w h
    rcases hl : envLookup e k with _ | v
    · rw [winGet_of_lookup_none _ _ hl] at h
      cases h
    · rw [winGet_of_lookup_some _ _ _ hl] at h
      by_cases h1 : v.length + 1 ≤ bufSize
      · rw [if_pos h1] at h
        by_cases h2 : v.length > v8MaxLength
        · rw [if_pos h2] at h
          cases h
        · rw [if_neg h2] at h
          injection h with hvw
          rw [hvw]
      · rw [if_neg h1] at h
        cases h

/-- Witness for C3 (amended): the overlong value reads as absent, and a
small stored value is returned exactly. -/
theorem c3_witness :
    winGet [(['K'], List.replicate 32767 'a')] ['K'] = GetResult.noValue ∧
    envLookup [(['K'], ['x'])] ['K'] = some ['x'] :=
  ⟨c3_overlong_value.1 _ ['K'] (List.replicate 32767 'a') rfl
     (by rw [List.length_replicate]; decide),
   c3_overlong_value.2 [(['K'], ['x'])] ['K'] ['x'] (by decide)⟩

/-- Claim C4: under the deprecation-pending configuration, with a value
that is not a string, number or boolean and the one-time warning not yet
emitted, a failing deprecation notification aborts the write before any
mutation: the callback returns with the store unchanged and no `Set`
call made on the underlying store. -/
theorem c4_notification_failure_aborts (p : JSName) (v : JSValue)
    (st : SetterState) (hs : v.isString = false) (hn : v.isNumber = false)
    (hb : v.isBoolean = false) (hw : st.warned = false) :
    (envSetter true false p v st).notified = true ∧
    (envSetter true false p v st).store = st.store ∧
    (envSetter true false p v st).setCalls = [] ∧
    (envSetter true false p v st).result = SetterResult.aborted := by
  simp [envSetter, emitProcessEnvWarning, hs, hn, hb, hw]

/-- Witness for C4: a failing notification on an object-valued write
leaves the empty store empty with no `Set` call recorded. -/
theorem c4_witness :
    (envSetter true false (JSName.str ['A']) (JSValue.object (some ['x']))
      ⟨false, []⟩).store = [] ∧
    (envSetter true false (JSName.str ['A']) (JSValue.object (some ['x']))
      ⟨false, []⟩).setCalls = [] :=
  ⟨(c4_notification_failure_aborts (JSName.str ['A'])
      (JSValue.object (some ['x'])) ⟨false, []⟩ rfl rfl rfl rfl).2.1,
   (c4_notification_failure_aborts (JSName.str ['A'])
      (JSValue.object (some ['x'])) ⟨false, []⟩ rfl rfl rfl rfl).2.2.1⟩

/-- Claim C5: `Query` is tri-state on both branches: a key not in the
block yields the -1 sentinel; a key just written by `Set` yields 0
(present, normal); and a present-but-empty value yields 0 (found by the
error/success signal), not the absent sentinel. -/
theorem c5_query_tristate :
    (∀ e k, envLookup e k = none → posixQuery e k = -1 ∧ winQuery e k = -1) ∧
    (∀ e k v, posixQuery (posixSet e k v) k = 0) ∧
    (∀ e k v, startsWithEq k = false → winQuery (winSet e k v) k = 0) ∧
    (∀ e k, envLookup e k = some [] →
      posixQuery e k = 0 ∧ (startsWithEq k = false → winQuery e k = 0)) := by
  refine ⟨?_, ?_, ?_, ?_⟩
  · intro e k h
    constructor <;> simp [posixQuery, winQuery, h]
  · intro e k v
    simp [posixQuery, posixSet, envLookup_storeSet_self]
  · intro e k v hk
    simp [winQuery, winSet, hk, envLookup_storeSet_self]
  · intro e k h
    exact ⟨by simp [posixQuery, h], fun hk => by simp [winQuery, h, hk]⟩

/-- Witness for C5: the three states on concrete inputs. -/
theorem c5_witness :
    posixQuery [] ['A'] = -1 ∧
    posixQuery (posixSet [] ['A'] ['x']) ['A'] = 0 ∧
    winQuery (winSet [] ['A'] ['x']) ['A'] = 0 ∧
    posixQuery [(['E'], [])] ['E'] = 0 :=
  ⟨(c5_query_tristate.1 [] ['A'] rfl).1,
   c5_query_tristate.2.1 [] ['A'] ['x'],
   c5_query_tristate.2.2.1 [] ['A'] ['x'] (by decide),
   (c5_query_tristate.2.2.2 [(['E'], [])] ['E'] (by decide)).1⟩

/-- Claim C6: `Delete(k)` followed by `Get(k)` reports no value on both
branches; `Delete` never fails; and the facade `EnvDeleter` sets its
boolean result to `true` regardless of prior presence or key type,
including on a second delete of the same key. -/
theorem c6_delete_get :
    (∀ e k, posixGet (posixDelete e k) k = none) ∧
    (∀ e k, winGet (winDelete e k) k = GetResult.noValue) ∧
    (∀ del p e, (envDeleter del p e).2 = true) ∧
    (∀ del p e, (envDeleter del p ((envDeleter del p e).1)).2 = true) := by
  refine ⟨?_, ?_, ?_, ?_⟩
  · intro e k
    exact envLookup_storeDelete_self e k
  · intro e k
    exact winGet_of_lookup_none _ _ (envLookup_storeDelete_self e k)
  · intro del p e
    cases p <;> rfl
  · intro del p e
    cases p <;> rfl

/-- Claim C7, as stated, fails when the deprecation notification fails:
`EnvSetter` returns before `info.GetReturnValue().Set(value)`, so the
callback aborts with no result value instead of producing the original
input value. -/
theorem c7_counterexample :
    (envSetter true false (JSName.str ['A']) (JSValue.object (some ['x']))
      ⟨false, []⟩).result ≠
      SetterResult.returned (JSValue.object (some ['x'])) ∧
    (envSetter true false (JSName.str ['A']) (JSValue.object (some ['x']))
      ⟨false, []⟩).result = SetterResult.aborted := by
  constructor
  · decide
  · decide

/-- Claim C7 (amended): whenever `EnvSetter` produces a result value at
all, it is the original uncoerced input value; in the remaining cases
(failed notification, failed string coercion of name or value) the
callback aborts with no result value. -/
theorem c7_result_is_input (pd warnOk : Bool) (p : JSName) (v : JSValue)
    (st : SetterState) :
    (envSetter pd warnOk p v st).result = SetterResult.returned v ∨
    (envSetter pd warnOk p v st).result = SetterResult.aborted := by
  cases pd <;> cases warnOk <;> cases hw : st.warned <;>
    cases hs : v.isString <;> cases hn : v.isNumber <;> cases hb : v.isBoolean <;>
      cases hp : p.nameToString <;> cases hv : v.valueToString <;>
        simp [envSetter, emitProcessEnvWarning, hw, hs, hn, hb, hp, hv]

/-- Claim C8: starting from the unwarned state, any sequence of writes
under the deprecation-pending configuration emits at most one
deprecation notification in the whole process lifetime; and a qualifying
(non-string, non-number, non-boolean) write that completes stores the
string form of its input value under its key. -/
theorem c8_one_time_warning :
    (∀ calls store, (runWrites true calls ⟨false, store⟩).2 ≤ 1) ∧
    (∀ warnOk k value strv st,
      value.isString = false → value.isNumber = false →
      value.isBoolean = false → value.valueToString = some strv →
      (envSetter true warnOk (JSName.str k) value st).result ≠
        SetterResult.aborted →
      envLookup (envSetter true warnOk (JSName.str k) value st).store k
        = some strv) := by
  constructor
  · intro calls store
    exact runWrites_count_le_one true calls ⟨false, store⟩
  · intro warnOk k value strv st hs hn hb hv hres
    cases hw : st.warned
    · cases warnOk
      · exact absurd
          (by simp [envSetter, emitProcessEnvWarning, hs, hn, hb, hw]) hres
      · simp [envSetter, emitProcessEnvWarning, hs, hn, hb, hw,
          JSName.nameToString, hv, envLookup_storeSet_self]
    · simp [envSetter, emitProcessEnvWarning, hs, hn, hb, hw,
        JSName.nameToString, hv, envLookup_storeSet_self]

/-- Witness for C8: a two-write sequence stays within one notification,
and a completed qualifying write stores the coerced value. -/
theorem c8_witness :
    (runWrites true
      [(true, JSName.str ['A'], JSValue.object (some ['x'])),
       (true, JSName.str ['B'], JSValue.object (some ['y']))]
      ⟨false, []⟩).2 ≤ 1 ∧
    envLookup (envSetter true true (JSName.str ['K'])
      (JSValue.object (some ['x'])) ⟨false, []⟩).store ['K'] = some ['x'] :=
  ⟨c8_one_time_warning.1
     [(true, JSName.str ['A'], JSValue.object (some ['x'])),
      (true, JSName.str ['B'], JSValue.object (some ['y']))] [],
   c8_one_time_warning.2 true ['K'] (JSValue.object (some ['x'])) ['x']
     ⟨false, []⟩ rfl rfl rfl rfl (by decide)⟩

/-- Claim C9: `Enumerate` splits each raw record into its key at the
first `'='` on both branches — on POSIX every record contributes its
key and a record with no separator contributes its entire text; on the
Windows branch the same split applies to every non-hidden record of a
well-formed block (no embedded empty record, keys within the host
string-length maximum). -/
theorem c9_enumerate_split :
    (∀ block, posixEnumerate block = block.map recordKey) ∧
    (∀ r : NativeStr, '=' ∉ r → recordKey r = r) ∧
    (∀ block, [] ∉ block →
      (∀ r ∈ block, (recordKey r).length ≤ v8MaxLength) →
      winEnumerate block
        = some ((block.filter (fun r => !startsWithEq r)).map recordKey)) := by
  refine ⟨?_, recordKey_of_no_sep, winEnumerate_eq_filter_map⟩
  intro block
  induction block with
  | nil => rfl
  | cons r rest ih => simp [posixEnumerate, ih]

/-- Witness for C9: a concrete block with one separated and one
separator-free record on each branch. -/
theorem c9_witness :
    posixEnumerate [['A', '=', '1'], ['B']] = [['A'], ['B']] ∧
    recordKey ['B'] = ['B'] ∧
    winEnumerate [['A', '=', '1'], ['B']] = some [['A'], ['B']] := by
  refine ⟨?_, c9_enumerate_split.2.1 ['B'] (by decide), ?_⟩
  · rw [c9_enumerate_split.1 [['A', '=', '1'], ['B']]]
    decide
  · rw [c9_enumerate_split.2.2 [['A', '=', '1'], ['B']] (by decide) (by decide)]
    decide

/-- Claim C10: `EnvGetter` handles every property name in exactly two
total cases — a symbol returns `undefined` without consulting the store
and a string delegates to the store's `Get` — so the
`CHECK(property->IsString())` assertion (the `none` branch of the model)
is unreachable for names satisfying the interceptor contract. -/
theorem c10_getter_total (g : NativeStr → Option NativeStr) (p : JSName) :
    (envGetter g p).isSome = true ∧
    (∀ id, p = JSName.symbol id →
      envGetter g p = some EnvGetterResult.undefinedResult) ∧
    (∀ s, p = JSName.str s →
      envGetter g p = some (EnvGetterResult.valueResult (g s))) := by
  cases p with
  | str s =>
    refine ⟨rfl, ?_, ?_⟩
    · intro id h
      cases h
    · intro s' h
      cases h
      rfl
  | symbol id =>
    refine ⟨rfl, ?_, ?_⟩
    · intro id' h
      cases h
      rfl
    · intro s h
      cases h

/-- Witness for C10: both total cases on concrete names. -/
theorem c10_witness :
    envGetter (fun _ => none) (JSName.symbol 0)
      = some EnvGetterResult.undefinedResult ∧
    envGetter (fun _ => none) (JSName.str ['A'])
      = some (EnvGetterResult.valueResult none) :=
  ⟨(c10_getter_total (fun _ => none) (JSName.symbol 0)).2.1 0 rfl,
   (c10_getter_total (fun _ => none) (JSName.str ['A'])).2.2 ['A'] rfl⟩
